import Mathlib

/-!
Verification development for the Simple_DropBox file-sync system.

The development shallowly embeds the reconciliation-relevant parts of the
repository: the server file routes (`Server/routes/files.js`, second
version, which is the one with hash-based deduplication), the client sync
loop (`Client/lib/sync.js`), and the client file watcher
(`Client/lib/file-watcher.js`).  The Merkle-tree module
(`Client/lib/merkle-tree.js`) is referenced by the README but is not part
of the available sources, so its root-hash computation is modelled from
the specification text.

Machine integers are modelled as `Nat`; SHA-256 digests are modelled as
abstract digest strings (the handlers only ever move digests around and
compare them for equality, so a file buffer is represented by its digest
together with its byte count).  Database rows are lists of records;
the MinIO object store is a list of (key, content-digest) pairs.
-/

namespace MerkleTree

/-- Modelled from the spec: `Client/lib/merkle-tree.js` is referenced by the
README but missing from the sources.  The spec describes the root hash as a
deterministic combination of the leaves, each leaf wrapping one entry's
`path` and `contentHash`, combined by a path-keyed sorted join that
length-prefixes each component to avoid concatenation ambiguity.  The hash
function itself is modelled as an abstract pure digest on strings. -/
def hashString (s : String) : Nat :=
  s.foldl (fun a c => (a * 131 + c.toNat) % 18446744073709551616) 5381

/-- Lexicographic order on (path, contentHash) entries, used to put the
flat entry map into its canonical sorted form before hashing. -/
def entryLe (a b : String × String) : Prop :=
  a.1 < b.1 ∨ (a.1 = b.1 ∧ a.2 ≤ b.2)

instance : DecidableRel entryLe :=
  fun a b => by unfold entryLe; infer_instance

instance : IsTrans (String × String) entryLe := by
  constructor
  intro a b c hab hbc
  rcases hab with h | ⟨he, h2⟩ <;> rcases hbc with h' | ⟨he', h2'⟩
  · exact Or.inl (lt_trans h h')
  · exact Or.inl (he' ▸ h)
  · exact Or.inl (he ▸ h')
  · exact Or.inr ⟨he.trans he', le_trans h2 h2'⟩

instance : IsTotal (String × String) entryLe := by
  constructor
  intro a b
  rcases lt_trichotomy a.1 b.1 with h | h | h
  · exact Or.inl (Or.inl h)
  · rcases le_total a.2 b.2 with h2 | h2
    · exact Or.inl (Or.inr ⟨h, h2⟩)
    · exact Or.inr (Or.inr ⟨h.symm, h2⟩)
  · exact Or.inr (Or.inl h)

instance : IsAntisymm (String × String) entryLe := by
  constructor
  intro a b hab hba
  rcases hab with h | ⟨he, h2⟩ <;> rcases hba with h' | ⟨he', h2'⟩
  · exact absurd h' (lt_asymm h)
  · exact absurd h (he' ▸ lt_irrefl b.1)
  · exact absurd h' (he ▸ lt_irrefl a.1)
  · cases a
    cases b
    simp only [Prod.mk.injEq]
    exact ⟨he, le_antisymm h2 h2'⟩

/-- Modelled from the spec: canonical sorted form of the flat entry map,
keyed by path (full lexicographic comparison on the pair). -/
def sortEntries (l : List (String × String)) : List (String × String) :=
  List.insertionSort entryLe l

/-- Modelled from the spec: serialization of one leaf, length-prefixed so
that child boundaries are unambiguous. -/
def leafData (e : String × String) : String :=
  toString e.1.length ++ ":" ++ e.1 ++ ":" ++ toString e.2.length ++ ":" ++ e.2

/-- Modelled from the spec: `rootHash` = hash of the sorted-concatenation of
all leaves, rebuilt deterministically from the flat map of entries. -/
def rootHash (entries : List (String × String)) : Nat :=
  hashString (String.intercalate "|" ((sortEntries entries).map leafData))

theorem sortEntries_eq_of_perm {l₁ l₂ : List (String × String)}
    (h : List.Perm l₁ l₂) : sortEntries l₁ = sortEntries l₂ :=
  List.eq_of_perm_of_sorted
    (((List.perm_insertionSort entryLe l₁).trans h).trans
      (List.perm_insertionSort entryLe l₂).symm)
    (List.sorted_insertionSort entryLe l₁)
    (List.sorted_insertionSort entryLe l₂)

end MerkleTree

/-- Claim C1: the tree's rootHash is a pure function of the entry set alone:
two trees whose entry lists are equal as (path, contentHash) multisets
(i.e. permutations of one another) produce the identical rootHash,
independent of the order in which the entries were inserted. -/
theorem rootHash_insertion_order_invariant (l₁ l₂ : List (String × String))
    (h : List.Perm l₁ l₂) : MerkleTree.rootHash l₁ = MerkleTree.rootHash l₂ := by
  unfold MerkleTree.rootHash
  rw [MerkleTree.sortEntries_eq_of_perm h]

/-- Witness for C1 at a concrete pair of oppositely-ordered entry lists. -/
theorem rootHash_insertion_order_invariant_witness :
    List.Perm [("a.txt", "h1"), ("b.txt", "h2")] [("b.txt", "h2"), ("a.txt", "h1")] ∧
    MerkleTree.rootHash [("a.txt", "h1"), ("b.txt", "h2")] =
      MerkleTree.rootHash [("b.txt", "h2"), ("a.txt", "h1")] :=
  ⟨List.Perm.swap ("b.txt", "h2") ("a.txt", "h1") [],
   rootHash_insertion_order_invariant _ _
     (List.Perm.swap ("b.txt", "h2") ("a.txt", "h1") [])⟩

namespace Server

/-- One row of the `files` table, second version of the schema
(`migrate.js` base columns plus the `local_url`, `s3_url`, `upload_status`
columns the second `routes/files.js` writes).  Timestamps are omitted:
no route reads them back. -/
structure FileRecord where
  id : Nat
  userId : String
  filename : String
  filePath : String
  fileSize : Nat
  fileHash : String
  mimeType : String
  minioKey : String
  localUrl : Option String
  s3Url : Option String
  uploadStatus : String
  status : String
  deriving Repr, DecidableEq

/-- Server-side state touched by the file routes: the `files` table rows and
the MinIO bucket, modelled as a list of (object key, content digest) pairs.
`nextId` supplies the next generated row id. -/
structure ServerState where
  files : List FileRecord
  store : List (String × String)
  nextId : Nat
  deriving Repr, DecidableEq

/-- `req.file` as produced by multer: the buffer is represented by its
SHA-256 digest `bufferHash` (the handler only ever uses the buffer through
`calculateFileHash` and `putObject`) together with its byte count `size`. -/
structure UploadedFile where
  originalname : String
  bufferHash : String
  size : Nat
  mimetype : String
  deriving Repr, DecidableEq

/-- `calculateFileHash(buffer)`: SHA-256 hex digest of the buffer, which in
this embedding is the digest the buffer is represented by. -/
def calculateFileHash (uf : UploadedFile) : String :=
  uf.bufferHash

/-- `generateMinioKey(userId, filename)`: the freshly drawn `uuidv4()` is an
explicit input, since it is the only nondeterminism in the function. -/
def generateMinioKey (userId : String) (filename : String) (uuid : String) : String :=
  "users/" ++ userId ++ "/files/" ++ uuid ++ "/" ++ filename

/-- `generateS3Url(minioKey)`: presigned GET URL with a 60*60 second expiry,
modelled as a tagged string (the catch-branch fallback URL is only reachable
on a MinIO client error, which the pure model does not produce). -/
def generateS3Url (minioKey : String) : String :=
  "presigned:" ++ minioKey ++ ":3600"

/-- `path.join(filePath, originalname).replace(backslashes, slashes)` for
forward-slash inputs. -/
def joinPath (dir : String) (name : String) : String :=
  if dir = "" then name
  else if dir.endsWith "/" then dir ++ name
  else dir ++ "/" ++ name

/-- Responses of POST /files/upload: 400 no file, 413 multer size limit,
200 duplicate-content reuse, 201 created. -/
inductive UploadResponse where
  | noFile
  | sizeLimit
  | dedup (record : FileRecord) (s3Url : String)
  | created (record : FileRecord)
  deriving Repr, DecidableEq

/-- The duplicate check of the second upload handler:
SELECT * FROM files WHERE user_id = $1 AND file_hash = $2 AND status = 'active'. -/
def findActiveByHash (files : List FileRecord) (userId : String) (fileHash : String) :
    Option FileRecord :=
  files.find? (fun f => f.userId == userId && f.fileHash == fileHash && f.status == "active")

/-- The row the second upload handler INSERTs for a fresh content hash:
`minio_key` built from the freshly drawn uuid, `s3_url` the presigned URL
just generated, `upload_status` completed, `status` the schema default. -/
def newUploadRecord (st : ServerState) (userId : String) (uf : UploadedFile)
    (filePathParam : String) (localUrl : Option String) (uuid : String) : FileRecord :=
  { id := st.nextId, userId := userId, filename := uf.originalname,
    filePath := joinPath filePathParam uf.originalname, fileSize := uf.size,
    fileHash := calculateFileHash uf, mimeType := uf.mimetype,
    minioKey := generateMinioKey userId uf.originalname uuid, localUrl := localUrl,
    s3Url := some (generateS3Url (generateMinioKey userId uf.originalname uuid)),
    uploadStatus := "completed", status := "active" }

/-- Body of the second POST /files/upload handler, after multer: dedup by
content hash (reusing the stored record and only refreshing `local_url`),
otherwise putObject to MinIO and INSERT a row that includes the generated
presigned `s3_url`. -/
def uploadHandler (st : ServerState) (userId : String) (uf : UploadedFile)
    (filePathParam : String) (localUrl : Option String) (uuid : String) :
    UploadResponse × ServerState :=
  let fileHash := calculateFileHash uf
  match findActiveByHash st.files userId fileHash with
  | some f =>
      let doUpdate :=
        match localUrl with
        | some lu => f.localUrl != some lu
        | none => false
      let files' :=
        if doUpdate then
          st.files.map (fun g => if g.id == f.id then { g with localUrl := localUrl } else g)
        else st.files
      let f' := if doUpdate then { f with localUrl := localUrl } else f
      (UploadResponse.dedup f' (generateS3Url f.minioKey), { st with files := files' })
  | none =>
      let minioKey := generateMinioKey userId uf.originalname uuid
      let newRecord := newUploadRecord st userId uf filePathParam localUrl uuid
      (UploadResponse.created newRecord,
       { files := st.files ++ [newRecord], store := (minioKey, fileHash) :: st.store,
         nextId := st.nextId + 1 })

/-- POST /files/upload as routed: multer (memoryStorage, fileSize limit
100 * 1024 * 1024) rejects an oversized file before the handler runs, hence
before any putObject or INSERT; the handler then 400s when no file part was
sent. -/
def uploadRoute (st : ServerState) (userId : String) (reqFile : Option UploadedFile)
    (filePathParam : String) (localUrl : Option String) (uuid : String) :
    UploadResponse × ServerState :=
  match reqFile with
  | none => (UploadResponse.noFile, st)
  | some uf =>
      if uf.size > 100 * 1024 * 1024 then (UploadResponse.sizeLimit, st)
      else uploadHandler st userId uf filePathParam localUrl uuid

/-- Responses of DELETE /files/:fileId: 404 when no active row matches,
200 otherwise. -/
inductive DeleteResponse where
  | notFound
  | deleted
  deriving Repr, DecidableEq

/-- The lookup of the delete route:
SELECT * FROM files WHERE id = $1 AND user_id = $2 AND status = 'active'. -/
def findActiveById (files : List FileRecord) (fileId : Nat) (userId : String) :
    Option FileRecord :=
  files.find? (fun f => f.id == fileId && f.userId == userId && f.status == "active")

/-- `minioClient.removeObject(BUCKET_NAME, key)` on the modelled bucket. -/
def removeObject (store : List (String × String)) (key : String) :
    List (String × String) :=
  store.filter (fun kv => kv.1 != key)

/-- DELETE /files/:fileId: 404 when the row is absent or already deleted;
otherwise removeObject on the row's minio_key followed by
UPDATE files SET status = 'deleted' WHERE id = fileId. -/
def deleteRoute (st : ServerState) (userId : String) (fileId : Nat) :
    DeleteResponse × ServerState :=
  match findActiveById st.files fileId userId with
  | none => (DeleteResponse.notFound, st)
  | some f =>
      let store' := removeObject st.store f.minioKey
      let files' :=
        st.files.map (fun g => if g.id == fileId then { g with status := "deleted" } else g)
      (DeleteResponse.deleted, { st with files := files', store := store' })

end Server

namespace Client

/-- A file present in WATCH_DIRECTORY, by its path relative to that
directory, with the size fs.stat would report and its content digest. -/
structure LocalFile where
  path : String
  size : Nat
  contentHash : String
  deriving Repr, DecidableEq

/-- One element of syncData.changedFiles as the client uses it: the server
row's id, filename, file_path, file_size and file_hash. -/
structure RemoteFileMeta where
  id : Nat
  filename : String
  filePath : String
  fileSize : Nat
  fileHash : String
  deriving Repr, DecidableEq

/-- Whether downloadFileFromServer transfers data for one changed file. -/
inductive SyncAction where
  | skip
  | download
  deriving Repr, DecidableEq

/-- The skip decision inside downloadFileFromServer: when a local file
exists at the joined path and fs.stat reports the same size as the server
row's file_size, the file is logged as unchanged and the download is
skipped; otherwise the file is downloaded. -/
def downloadDecision (localFiles : List LocalFile) (meta : RemoteFileMeta) : SyncAction :=
  match localFiles.find? (fun lf => lf.path == meta.filePath) with
  | some lf =>
      if lf.size == meta.fileSize then SyncAction.skip else SyncAction.download
  | none => SyncAction.download

/-- Per-file result of one iteration of the performSync download loop. -/
inductive DownloadOutcome where
  | skipped
  | downloaded
  | failed
  deriving Repr, DecidableEq

/-- api.downloadFile writing the fetched bytes to the local path: an
existing file at that path is overwritten, otherwise the file is created. -/
def applyDownload (localFiles : List LocalFile) (meta : RemoteFileMeta) :
    List LocalFile :=
  if localFiles.any (fun lf => lf.path == meta.filePath) then
    localFiles.map (fun lf =>
      if lf.path == meta.filePath then
        ⟨meta.filePath, meta.fileSize, meta.fileHash⟩
      else lf)
  else localFiles ++ [⟨meta.filePath, meta.fileSize, meta.fileHash⟩]

/-- The try-block of downloadFileFromServer: skip when unchanged by size,
otherwise attempt the download; `failOracle` says, per file id, whether the
network or filesystem fails the attempt. -/
def downloadFileBody (localFiles : List LocalFile) (meta : RemoteFileMeta)
    (failOracle : Nat → Bool) : Except String (DownloadOutcome × List LocalFile) :=
  match downloadDecision localFiles meta with
  | SyncAction.skip => Except.ok (DownloadOutcome.skipped, localFiles)
  | SyncAction.download =>
      if failOracle meta.id then Except.error "download failed"
      else Except.ok (DownloadOutcome.downloaded, applyDownload localFiles meta)

/-- downloadFileFromServer: its whole body sits in a try/catch, so a failed
download is caught, logged per file, and the function returns instead of
throwing into the caller's loop. -/
def downloadFileFromServer (localFiles : List LocalFile) (meta : RemoteFileMeta)
    (failOracle : Nat → Bool) : DownloadOutcome × List LocalFile :=
  match downloadFileBody localFiles meta failOracle with
  | Except.ok r => r
  | Except.error _ => (DownloadOutcome.failed, localFiles)

/-- The for-loop of performSync over syncData.changedFiles, with each
file's outcome recorded in order. -/
def runDownloads (localFiles : List LocalFile) (metas : List RemoteFileMeta)
    (failOracle : Nat → Bool) : List (Nat × DownloadOutcome) × List LocalFile :=
  match metas with
  | [] => ([], localFiles)
  | m :: rest =>
      let r := downloadFileFromServer localFiles m failOracle
      let r2 := runDownloads r.2 rest failOracle
      ((m.id, r.1) :: r2.1, r2.2)

/-- Result of one performSync cycle: the per-file outcomes, the local files
afterwards, and whether the cycle reached completeSync and the lastSyncAt
update. -/
structure SyncCycleResult where
  results : List (Nat × DownloadOutcome)
  localFiles : List LocalFile
  completed : Bool
  deriving Repr, DecidableEq

/-- performSync after initSync returned `changedFiles`: run the download
loop (each per-file failure is caught inside downloadFileFromServer), then
call completeSync and update lastSyncAt. -/
def performSync (localFiles : List LocalFile) (changedFiles : List RemoteFileMeta)
    (failOracle : Nat → Bool) : SyncCycleResult :=
  let r := runDownloads localFiles changedFiles failOracle
  { results := r.1, localFiles := r.2, completed := true }

/-- path.basename: the last forward-slash-separated component. -/
def basename (p : String) : String :=
  (p.splitOn "/").getLastD p

/-- Substring containment, as the regex patterns without anchors test it. -/
def containsSub (s sub : String) : Bool :=
  decide (1 < (s.splitOn sub).length)

/-- shouldIgnoreFile from file-watcher.js: each pattern is tested against
the basename and against the full path. -/
def shouldIgnoreFile (filePath : String) : Bool :=
  let b := basename filePath
  let pats : List (String → Bool) :=
    [ fun s => s.startsWith "."
    , fun s => s.endsWith "~"
    , fun s => s.endsWith ".tmp"
    , fun s => s.endsWith ".log"
    , fun s => containsSub s "node_modules"
    , fun s => containsSub s ".git" ]
  pats.any (fun pat => pat b || pat filePath)

/-- The chokidar events startWatcher subscribes to. -/
inductive WatchEvent where
  | add (p : String)
  | change (p : String)
  | unlink (p : String)
  deriving Repr, DecidableEq

/-- Watcher-side client state: the upload queue (a JS Set of relative
paths) and the remote delete calls issued by the watcher handlers.  No
handler in file-watcher.js ever issues a delete call, so the second field
records that fact. -/
structure WatcherState where
  uploadQueue : List String
  deleteRequests : List String
  deriving Repr, DecidableEq

/-- uploadQueue.add on a JS Set: adding an already-queued path is a no-op. -/
def queueAdd (q : List String) (p : String) : List String :=
  if q.contains p then q else q ++ [p]

/-- Dispatch of one chokidar event as wired in startWatcher: add and change
go through handleFileChange, which drops ignored files and queues an upload
of the relative path; the unlink handler only computes the relative path
and logs it — it issues no API call and changes no state.  Event paths are
taken relative to WATCH_DIRECTORY. -/
def handleWatchEvent (st : WatcherState) (e : WatchEvent) : WatcherState :=
  match e with
  | WatchEvent.add p =>
      if shouldIgnoreFile p then st
      else { st with uploadQueue := queueAdd st.uploadQueue p }
  | WatchEvent.change p =>
      if shouldIgnoreFile p then st
      else { st with uploadQueue := queueAdd st.uploadQueue p }
  | WatchEvent.unlink _ => st

end Client

theorem find?_append_of_none {α : Type} {p : α → Bool} (l₁ l₂ : List α)
    (h : l₁.find? p = none) : (l₁ ++ l₂).find? p = l₂.find? p := by
  induction l₁ with
  | nil => rfl
  | cons a t ih =>
      cases hpa : p a with
      | true => simp [List.find?, hpa] at h
      | false =>
          simp only [List.find?, hpa] at h
          simp only [List.cons_append, List.find?, hpa]
          exact ih h

/-- Claim C2 at the failing input: the changed-file entry for path a.txt has
content hash h2, the local file at a.txt has content hash h1 but the same
byte count, and downloadFileFromServer classifies the file as unchanged and
skips the transfer — the decision is taken by comparing sizes alone, the
content hashes are never consulted. -/
theorem downloadDecision_skips_on_equal_size_despite_hash_mismatch :
    Client.downloadDecision [⟨"a.txt", 5, "h1"⟩] ⟨1, "a.txt", "a.txt", 5, "h2"⟩ =
      Client.SyncAction.skip ∧ ("h1" : String) ≠ "h2" := by
  exact ⟨rfl, by decide⟩

/-- Claim C5 at the failing input: a fresh upload INSERTs a row whose s3_url
column holds the presigned URL that was just generated, so the time-limited
access URL is persisted to the database rather than only generated on
demand. -/
theorem upload_persists_presigned_url :
    ((Server.uploadRoute ⟨[], [], 1⟩ "u1"
        (some ⟨"f.txt", "h1", 5, "text/plain"⟩) "/" (some "/local/f.txt") "uuid1").2.files.map
      Server.FileRecord.s3Url) =
    [some (Server.generateS3Url (Server.generateMinioKey "u1" "f.txt" "uuid1"))] := by
  rfl

/-- Claim C6 counterexample: deleting a fileId with no active row answers
404 File not found — an error response, not a silent no-op. -/
theorem delete_absent_returns_error :
    (Server.deleteRoute ⟨[], [], 1⟩ "u1" 7).1 = Server.DeleteResponse.notFound := by
  rfl

/-- Claim C6 as amended: deletion is idempotent at the state level — running
the delete route twice for the same fileId leaves exactly the state of
running it once (the second run matches no active row and changes nothing),
even though that second run answers 404 rather than succeeding silently. -/
theorem delete_idempotent_on_state (st : Server.ServerState) (userId : String)
    (fileId : Nat) :
    (Server.deleteRoute (Server.deleteRoute st userId fileId).2 userId fileId).2 =
      (Server.deleteRoute st userId fileId).2 := by
  cases h : Server.findActiveById st.files fileId userId with
  | none => simp [Server.deleteRoute, h]
  | some f =>
      have hnone : Server.findActiveById
          (st.files.map fun g => if g.id == fileId then { g with status := "deleted" } else g)
          fileId userId = none := by
        unfold Server.findActiveById
        rw [List.find?_eq_none]
        intro x hx
        obtain ⟨y, hy, rfl⟩ := List.mem_map.mp hx
        by_cases hid : (y.id == fileId) = true
        · simp [hid]
        · simp [hid]
      simp only [beq_iff_eq] at hnone
      simp [Server.deleteRoute, h, hnone]

/-- Claim C7 counterexample: two runs of generateMinioKey for the same user
and filename (hence the same content hash and path) with the two freshly
drawn UUIDs yield different keys: the permanent key is not a deterministic
function of (contentHash, path) — it does not depend on the content hash at
all. -/
theorem generateMinioKey_not_deterministic :
    Server.generateMinioKey "u1" "f.txt" "uuid-a" ≠
      Server.generateMinioKey "u1" "f.txt" "uuid-b" := by
  decide

/-- Claim C3: when an upload carries content whose hash matches an active
row already stored for the same user, the handler resolves it by reusing
that row's minio_key: the response carries the existing key, the object
store is untouched (no second physical upload of the bytes), and no new row
is inserted. -/
theorem upload_dedup_reuses_key (st : Server.ServerState) (userId : String)
    (uf : Server.UploadedFile) (p : String) (lu : Option String) (uuid : String)
    (f : Server.FileRecord)
    (hsize : uf.size ≤ 100 * 1024 * 1024)
    (hfind : Server.findActiveByHash st.files userId uf.bufferHash = some f) :
    ∃ r s, (Server.uploadRoute st userId (some uf) p lu uuid).1 =
        Server.UploadResponse.dedup r s ∧
      r.minioKey = f.minioKey ∧
      (Server.uploadRoute st userId (some uf) p lu uuid).2.store = st.store ∧
      (Server.uploadRoute st userId (some uf) p lu uuid).2.files.length =
        st.files.length := by
  have hgt : ¬ (uf.size > 100 * 1024 * 1024) := by omega
  simp only [Server.uploadRoute, if_neg hgt, Server.uploadHandler,
    Server.calculateFileHash, hfind]
  refine ⟨_, _, rfl, ?_, trivial, ?_⟩
  · split <;> rfl
  · split <;> simp

/-- A server state holding one active row for user u1 with content hash h1
stored under key k0, together with the stored object. -/
def dedupDemoRecord : Server.FileRecord :=
  ⟨1, "u1", "f.txt", "/f.txt", 5, "h1", "text/plain", "k0", none, none,
   "completed", "active"⟩

def dedupDemoState : Server.ServerState :=
  ⟨[dedupDemoRecord], [("k0", "h1")], 2⟩

/-- Witness for C3: uploading content with hash h1 at a different path for
user u1 reuses key k0 and leaves the store and row count unchanged. -/
theorem upload_dedup_reuses_key_witness :
    ∃ r s,
      (Server.uploadRoute dedupDemoState "u1" (some ⟨"g.txt", "h1", 5, "text/plain"⟩)
          "/docs" none "uuidZ").1 = Server.UploadResponse.dedup r s ∧
      r.minioKey = dedupDemoRecord.minioKey ∧
      (Server.uploadRoute dedupDemoState "u1" (some ⟨"g.txt", "h1", 5, "text/plain"⟩)
          "/docs" none "uuidZ").2.store = dedupDemoState.store ∧
      (Server.uploadRoute dedupDemoState "u1" (some ⟨"g.txt", "h1", 5, "text/plain"⟩)
          "/docs" none "uuidZ").2.files.length = dedupDemoState.files.length :=
  upload_dedup_reuses_key dedupDemoState "u1" ⟨"g.txt", "h1", 5, "text/plain"⟩
    "/docs" none "uuidZ" dedupDemoRecord (by decide) (by rfl)

/-- Claim C7 as amended: the permanent key is generated once with a freshly
drawn random UUID, so it is not a deterministic function of (contentHash,
path); what holds instead is reuse: after a first upload stores the content
for a user, a second upload of identical content by that user (from any of
the user's devices, any path) is answered with the same permanent key, and
the object store is not written again. -/
theorem upload_reuses_key_across_reuploads (st : Server.ServerState) (userId : String)
    (uf₁ uf₂ : Server.UploadedFile) (p₁ p₂ : String) (lu₁ lu₂ : Option String)
    (uuid₁ uuid₂ : String)
    (hs₁ : uf₁.size ≤ 100 * 1024 * 1024) (hs₂ : uf₂.size ≤ 100 * 1024 * 1024)
    (hsame : uf₂.bufferHash = uf₁.bufferHash)
    (hnone : Server.findActiveByHash st.files userId uf₁.bufferHash = none) :
    ∃ r s,
      (Server.uploadRoute (Server.uploadRoute st userId (some uf₁) p₁ lu₁ uuid₁).2
          userId (some uf₂) p₂ lu₂ uuid₂).1 = Server.UploadResponse.dedup r s ∧
      r.minioKey = Server.generateMinioKey userId uf₁.originalname uuid₁ ∧
      (Server.uploadRoute (Server.uploadRoute st userId (some uf₁) p₁ lu₁ uuid₁).2
          userId (some uf₂) p₂ lu₂ uuid₂).2.store =
        (Server.uploadRoute st userId (some uf₁) p₁ lu₁ uuid₁).2.store := by
  have hgt₁ : ¬ (uf₁.size > 100 * 1024 * 1024) := by omega
  have hgt₂ : ¬ (uf₂.size > 100 * 1024 * 1024) := by omega
  have hfind₂ : Server.findActiveByHash
      (st.files ++ [Server.newUploadRecord st userId uf₁ p₁ lu₁ uuid₁])
      userId uf₂.bufferHash =
      some (Server.newUploadRecord st userId uf₁ p₁ lu₁ uuid₁) := by
    rw [hsame]
    unfold Server.findActiveByHash at hnone ⊢
    rw [find?_append_of_none _ _ hnone]
    simp [List.find?, Server.newUploadRecord, Server.calculateFileHash]
  simp only [Server.uploadRoute, if_neg hgt₁, if_neg hgt₂, Server.uploadHandler,
    Server.calculateFileHash, hfind₂, hnone]
  refine ⟨_, _, rfl, ?_, trivial⟩
  split <;> simp [Server.newUploadRecord]

/-- A server state for the C8 scenario: two active rows of user u1 share the
content hash h1 but sit under different permanent keys k1 and k2, and both
objects are in the store. -/
def sharedHashState : Server.ServerState :=
  ⟨[⟨1, "u1", "a.txt", "/a.txt", 5, "h1", "t", "k1", none, none, "completed", "active"⟩,
    ⟨2, "u1", "b.txt", "/b.txt", 5, "h1", "t", "k2", none, none, "completed", "active"⟩],
   [("k1", "h1"), ("k2", "h1")], 3⟩

/-- Claim C8 counterexample: deleting row 1 physically removes object k1
from the store even though row 2 — still active — references the same
content hash h1; the delete operation does not leave the underlying object
unchanged and performs no reference check. -/
theorem delete_removes_referenced_object :
    (Server.deleteRoute sharedHashState "u1" 1).2.store = [("k2", "h1")] ∧
    ((Server.deleteRoute sharedHashState "u1" 1).2.files.filter
        (fun f => f.fileHash == "h1" && f.status == "active")).length = 1 := by
  decide

/-- Claim C8 as amended: the delete route removes the metadata row (marks it
deleted) and also unconditionally removes the object at the row's minio_key
from the store, with no check for other rows referencing the same content
hash. -/
theorem delete_always_removes_object (st : Server.ServerState) (userId : String)
    (fileId : Nat) (f : Server.FileRecord)
    (h : Server.findActiveById st.files fileId userId = some f) :
    (Server.deleteRoute st userId fileId).1 = Server.DeleteResponse.deleted ∧
    (Server.deleteRoute st userId fileId).2.store =
      Server.removeObject st.store f.minioKey ∧
    ∀ c, (f.minioKey, c) ∉ (Server.deleteRoute st userId fileId).2.store := by
  refine ⟨?_, ?_, ?_⟩
  · simp [Server.deleteRoute, h]
  · simp [Server.deleteRoute, h]
  · intro c hc
    simp only [Server.deleteRoute, h] at hc
    unfold Server.removeObject at hc
    have hkeep := (List.mem_filter.mp hc).2
    simp at hkeep

/-- Witness for the amended C8 at the shared-hash state. -/
theorem delete_always_removes_object_witness :
    (Server.deleteRoute sharedHashState "u1" 1).1 = Server.DeleteResponse.deleted ∧
    (Server.deleteRoute sharedHashState "u1" 1).2.store =
      Server.removeObject sharedHashState.store "k1" ∧
    ∀ c, ("k1", c) ∉ (Server.deleteRoute sharedHashState "u1" 1).2.store :=
  delete_always_removes_object sharedHashState "u1" 1
    ⟨1, "u1", "a.txt", "/a.txt", 5, "h1", "t", "k1", none, none, "completed", "active"⟩
    (by rfl)

theorem runDownloads_ids (lfs : List Client.LocalFile)
    (metas : List Client.RemoteFileMeta) (oracle : Nat → Bool) :
    (Client.runDownloads lfs metas oracle).1.map Prod.fst =
      metas.map Client.RemoteFileMeta.id := by
  induction metas generalizing lfs with
  | nil => rfl
  | cons m rest ih => simp [Client.runDownloads, ih]

theorem path_mem_applyDownload (lfs : List Client.LocalFile)
    (m : Client.RemoteFileMeta) (q : String)
    (hq : q ∈ lfs.map Client.LocalFile.path) :
    q ∈ (Client.applyDownload lfs m).map Client.LocalFile.path := by
  unfold Client.applyDownload
  split
  · obtain ⟨lf, hlf, rfl⟩ := List.mem_map.mp hq
    refine List.mem_map.mpr
      ⟨if lf.path == m.filePath then ⟨m.filePath, m.fileSize, m.fileHash⟩ else lf,
       List.mem_map_of_mem _ hlf, ?_⟩
    by_cases hp : (lf.path == m.filePath) = true
    · rw [if_pos hp]
      exact (beq_iff_eq.mp hp).symm
    · rw [if_neg hp]
  · rw [List.map_append]
    exact List.mem_append_left _ hq

theorem path_mem_downloadFileFromServer (lfs : List Client.LocalFile)
    (m : Client.RemoteFileMeta) (oracle : Nat → Bool) (q : String)
    (hq : q ∈ lfs.map Client.LocalFile.path) :
    q ∈ (Client.downloadFileFromServer lfs m oracle).2.map Client.LocalFile.path := by
  cases hd : Client.downloadDecision lfs m with
  | skip =>
      simp only [Client.downloadFileFromServer, Client.downloadFileBody, hd]
      exact hq
  | download =>
      cases ho : oracle m.id with
      | true =>
          simp only [Client.downloadFileFromServer, Client.downloadFileBody, hd, ho,
            if_pos]
          exact hq
      | false =>
          simp only [Client.downloadFileFromServer, Client.downloadFileBody, hd, ho,
            Bool.false_eq_true, if_neg]
          exact path_mem_applyDownload lfs m q hq

theorem path_mem_runDownloads (lfs : List Client.LocalFile)
    (metas : List Client.RemoteFileMeta) (oracle : Nat → Bool) (q : String)
    (hq : q ∈ lfs.map Client.LocalFile.path) :
    q ∈ (Client.runDownloads lfs metas oracle).2.map Client.LocalFile.path := by
  induction metas generalizing lfs with
  | nil => exact hq
  | cons m rest ih =>
      show q ∈ (Client.runDownloads
        (Client.downloadFileFromServer lfs m oracle).2 rest oracle).2.map
          Client.LocalFile.path
      exact ih _ (path_mem_downloadFileFromServer lfs m oracle q hq)

/-- Claim C4 at the failing behaviour: (i) the watcher's unlink handler
changes nothing — it queues no upload and issues no remote delete — so a
local removal is never propagated to the server; and (ii) a sync cycle only
ever downloads, so a path present locally is still present after the cycle —
a deletion on the server side is never applied locally either. -/
theorem deletion_never_propagates :
    (∀ st p, Client.handleWatchEvent st (Client.WatchEvent.unlink p) = st) ∧
    (∀ lfs metas oracle q, q ∈ lfs.map Client.LocalFile.path →
      q ∈ (Client.performSync lfs metas oracle).localFiles.map
        Client.LocalFile.path) := by
  constructor
  · intro st p
    rfl
  · intro lfs metas oracle q hq
    exact path_mem_runDownloads lfs metas oracle q hq

/-- Witness for the C4 theorem: an unlink event for c.txt leaves the watcher
state untouched, and a sync cycle keeps the locally present c.txt. -/
theorem deletion_never_propagates_witness :
    Client.handleWatchEvent ⟨["a.txt"], []⟩ (Client.WatchEvent.unlink "c.txt") =
      ⟨["a.txt"], []⟩ ∧
    "c.txt" ∈ (Client.performSync [⟨"c.txt", 3, "h4"⟩] [] (fun _ => false)).localFiles.map
      Client.LocalFile.path :=
  ⟨deletion_never_propagates.1 ⟨["a.txt"], []⟩ "c.txt",
   deletion_never_propagates.2 [⟨"c.txt", 3, "h4"⟩] [] (fun _ => false) "c.txt"
     (by simp)⟩

/-- Claim C9: a failure affecting one file never aborts the sync cycle:
whatever the per-file failure pattern, every changed file is processed (one
outcome recorded per file, in order) and the cycle reaches completeSync. -/
theorem sync_cycle_survives_per_file_failures (lfs : List Client.LocalFile)
    (metas : List Client.RemoteFileMeta) (oracle : Nat → Bool) :
    (Client.performSync lfs metas oracle).results.map Prod.fst =
      metas.map Client.RemoteFileMeta.id ∧
    (Client.performSync lfs metas oracle).completed = true :=
  ⟨runDownloads_ids lfs metas oracle, rfl⟩

/-- Claim C10: multer's fileSize limit makes the route reject a file larger
than 100 * 1024 * 1024 bytes before the handler runs — the state (object
store and rows) is returned untouched — while a file at or below the limit
is never rejected for size. -/
theorem upload_size_limit (st : Server.ServerState) (userId : String)
    (uf : Server.UploadedFile) (p : String) (lu : Option String) (uuid : String) :
    (uf.size > 100 * 1024 * 1024 →
      Server.uploadRoute st userId (some uf) p lu uuid =
        (Server.UploadResponse.sizeLimit, st)) ∧
    (uf.size ≤ 100 * 1024 * 1024 →
      (Server.uploadRoute st userId (some uf) p lu uuid).1 ≠
        Server.UploadResponse.sizeLimit) := by
  constructor
  · intro h
    simp [Server.uploadRoute, h]
  · intro h
    have hgt : ¬ (uf.size > 100 * 1024 * 1024) := by omega
    simp only [Server.uploadRoute, if_neg hgt, Server.uploadHandler,
      Server.calculateFileHash]
    cases hf : Server.findActiveByHash st.files userId uf.bufferHash <;> simp [hf]

/-- Witness for C10: one byte over the limit is rejected with the state
untouched; exactly at the limit the request is not size-rejected. -/
theorem upload_size_limit_witness :
    Server.uploadRoute ⟨[], [], 1⟩ "u1" (some ⟨"big.bin", "hbig", 104857601, "bin"⟩)
        "/" none "uuid1" = (Server.UploadResponse.sizeLimit, ⟨[], [], 1⟩) ∧
    (Server.uploadRoute ⟨[], [], 1⟩ "u1" (some ⟨"ok.bin", "hok", 104857600, "bin"⟩)
        "/" none "uuid1").1 ≠ Server.UploadResponse.sizeLimit :=
  ⟨(upload_size_limit ⟨[], [], 1⟩ "u1" ⟨"big.bin", "hbig", 104857601, "bin"⟩
      "/" none "uuid1").1 (by decide),
   (upload_size_limit ⟨[], [], 1⟩ "u1" ⟨"ok.bin", "hok", 104857600, "bin"⟩
      "/" none "uuid1").2 (by decide)⟩

/-- Witness for the amended C7: uploading content h1 twice for user u1 (the
second time under another filename and path, with another fresh uuid)
answers the key generated by the first upload, without writing the store
again. -/
theorem upload_reuses_key_across_reuploads_witness :
    ∃ r s,
      (Server.uploadRoute (Server.uploadRoute ⟨[], [], 1⟩ "u1"
          (some ⟨"f.txt", "h1", 5, "t"⟩) "/" none "uuidA").2
          "u1" (some ⟨"copy.txt", "h1", 5, "t"⟩) "/docs" none "uuidB").1 =
        Server.UploadResponse.dedup r s ∧
      r.minioKey = Server.generateMinioKey "u1" "f.txt" "uuidA" ∧
      (Server.uploadRoute (Server.uploadRoute ⟨[], [], 1⟩ "u1"
          (some ⟨"f.txt", "h1", 5, "t"⟩) "/" none "uuidA").2
          "u1" (some ⟨"copy.txt", "h1", 5, "t"⟩) "/docs" none "uuidB").2.store =
        (Server.uploadRoute ⟨[], [], 1⟩ "u1"
          (some ⟨"f.txt", "h1", 5, "t"⟩) "/" none "uuidA").2.store :=
  upload_reuses_key_across_reuploads ⟨[], [], 1⟩ "u1" ⟨"f.txt", "h1", 5, "t"⟩
    ⟨"copy.txt", "h1", 5, "t"⟩ "/" "/docs" none none "uuidA" "uuidB"
    (by decide) (by decide) rfl rfl
